import Mathlib

/-!
Verification development for the knowledge-metrics-service repository.

The embedding models the statistics engine (app/services/metrics_service.py),
the data loader (app/services/data_loader.py) and the query layer
(app/services/query_service.py) over exact rational arithmetic:

* pandas float64 columns are modelled as rational numbers;
* a pandas/numpy result that can be NaN is modelled as an Option, with
  none standing for NaN;
* pandas Series.std (sample standard deviation, ddof = 1) and Series.corr
  (Pearson) produce square roots of rationals.  Since no checked property
  compares two distinct irrational values, the model carries such fields in
  a squared encoding: a std field holds the square of the std (the sample
  variance), the correlation field holds the signed square
  sign(cov) * cov^2 / (var_x * var_y) of the correlation and the
  volatility field holds the square of the coefficient of variation.
  The encoding is exact, preserves 0, 1, NaN-ness and sign, and a value is
  0 or 1 in the encoding exactly when the float the code computes is; the
  4-decimal rounding the code applies on top of the square root is elided
  on those fields (it preserves 0, 1, finiteness and NaN-ness).
* Python float rounding round(x, 4) on values that stay rational is
  modelled by round4 below (round half up instead of bankers rounding;
  no checked property sits on a half-way case).
-/

namespace KMS

/-- Rounding to 4 decimal places, as Python round(x, 4) on a rational value. -/
def round4 (q : ℚ) : ℚ := (round (q * 10000) : ℤ) / 10000

/-- Sum of a list of rationals. -/
def qsum (xs : List ℚ) : ℚ := xs.foldr (· + ·) 0

/-- Mean of a list of rationals (pandas Series.mean); 0 placeholder on the
empty list, which is only reached where pandas would give NaN and the
callers below guard emptiness. -/
def qmean (xs : List ℚ) : ℚ := qsum xs / xs.length

/-- Sample variance with n-1 denominator, the square of the pandas
Series.std(ddof=1) value; total, with the division by zero of the
degenerate lengths collapsing to 0 (those lengths are guarded by pvar). -/
def svar (xs : List ℚ) : ℚ :=
  qsum (xs.map (fun x => (x - qmean xs) ^ 2)) / ((xs.length : ℚ) - 1)

/-- pandas Series.std(ddof=1) in the squared encoding: NaN (none) when the
series has at most one element, otherwise the sample variance. -/
def pvar (xs : List ℚ) : Option ℚ :=
  if xs.length ≤ 1 then none else some (svar xs)

/-- Sample covariance with n-1 denominator of two equal-length lists. -/
def scov (xs ys : List ℚ) : ℚ :=
  qsum ((xs.zip ys).map (fun p => (p.1 - qmean xs) * (p.2 - qmean ys))) /
    ((xs.length : ℚ) - 1)

/-- Signed square of the Pearson correlation of the two lists:
sign(cov) * cov^2 / (var_x * var_y).  none models the NaN that pandas
Series.corr yields when there is at most one row or a variance is zero. -/
def pcorrSgnSq (xs ys : List ℚ) : Option ℚ :=
  if xs.length ≤ 1 then none
  else
    let vx := svar xs
    let vy := svar ys
    if vx = 0 ∨ vy = 0 then none
    else
      let c := scov xs ys
      some ((if c < 0 then (-1 : ℚ) else 1) * c ^ 2 / (vx * vy))

/-- Minimum of a list of rationals, head-seeded (lists are non-empty where
used, mirroring pandas Series.min on a non-empty column). -/
def qminimum (xs : List ℚ) : ℚ :=
  match xs with
  | [] => 0
  | h :: t => t.foldl min h

/-- Maximum of a list of rationals, head-seeded. -/
def qmaximum (xs : List ℚ) : ℚ :=
  match xs with
  | [] => 0
  | h :: t => t.foldl max h

/-- First-seen deduplication, as pandas Series.unique. -/
def dedupFS (seen : List String) : List String → List String
  | [] => []
  | a :: t => if a ∈ seen then dedupFS seen t else a :: dedupFS (a :: seen) t

/-- Unique values of a string list in first-occurrence order. -/
def uniqueFS (l : List String) : List String := dedupFS [] l

/-- Calendar date, compared lexicographically. -/
structure Date where
  year : ℕ
  month : ℕ
  day : ℕ
deriving DecidableEq

/-- Lexicographic order on dates, as Python date ordering. -/
def dle (a b : Date) : Bool :=
  if a.year ≠ b.year then a.year < b.year
  else if a.month ≠ b.month then a.month < b.month
  else a.day ≤ b.day

/-- Strict lexicographic order on dates. -/
def dlt (a b : Date) : Bool := dle a b && !(a == b)

/-- Zero-padded two-digit rendering of a number below 100. -/
def pad2 (n : ℕ) : String := if n < 10 then "0" ++ toString n else toString n

/-- Zero-padded four-digit rendering of a year. -/
def pad4 (n : ℕ) : String :=
  if n < 10 then "000" ++ toString n
  else if n < 100 then "00" ++ toString n
  else if n < 1000 then "0" ++ toString n
  else toString n

/-- ISO rendering of a date, as Python str(date). -/
def dateToStr (d : Date) : String :=
  pad4 d.year ++ "-" ++ pad2 d.month ++ "-" ++ pad2 d.day

/-- Python str(optional date) at the NoDataInRangeError raise sites:
the string of the date when present, the literal N/A otherwise. -/
def optDateStr (d : Option Date) : String :=
  match d with
  | some x => dateToStr x
  | none => "N/A"

/-- Smallest Python date (datetime.date.min). -/
def dateMin : Date := ⟨1, 1, 1⟩

/-- Largest Python date (datetime.date.max). -/
def dateMax : Date := ⟨9999, 12, 31⟩

/-- One row of the vendor metrics CSV (data_loader loads columns date,
vendor, universe, feature_x, feature_y, signal_strength, drawdown_flag).
The universe column is named univ because universe is a Lean keyword. -/
structure Record where
  date : Date
  vendor : String
  univ : String
  feature_x : ℚ
  feature_y : ℚ
  signal_strength : ℚ
  drawdown_flag : ℕ
deriving DecidableEq

/-- The in-memory dataset: the loaded DataFrame as a list of rows. -/
abbrev Dataset := List Record

/-- Rows of one vendor, the slice df[df.vendor == vendor]. -/
def vendorRows (ds : Dataset) (vendor : String) : List Record :=
  ds.filter (fun r => r.vendor == vendor)

/-- Inclusive date filtering of a slice, exactly as the two optional
filters in data_loader (a present bound filters, an absent one does not;
Python date objects are always truthy). -/
def filterRange (df : List Record) (s e : Option Date) : List Record :=
  let df1 := match s with
    | some d => df.filter (fun r => dle d r.date)
    | none => df
  match e with
  | some d => df1.filter (fun r => dle r.date d)
  | none => df1

/-- DataLoaderService.get_vendors: unique vendor names in first-seen
order (the DataFrame is sorted by vendor and date at load time). -/
def getVendors (ds : Dataset) : List String := uniqueFS (ds.map (·.vendor))

/-- The application error taxonomy of app/core/exceptions.py, restricted
to the errors the modelled services can raise.  Payloads carry the values
the raise sites format into the message and detail strings. -/
inductive AppErr where
  | vendorNotFound (vendor : String) (available : List String)
  | noDataInRange (startd endd : Option Date)
  | invalidDateRange (startd endd : Date)
  | valueError (msg : String)
deriving DecidableEq

/-- Python str(exception).  For AppException subclasses this is the
message argument alone (the detail is not part of str); the single
quotes of the NotFoundError message are built from the ASCII code to
keep the development plain. -/
def errMsg (e : AppErr) : String :=
  match e with
  | .vendorNotFound v _ =>
      let q := String.singleton (Char.ofNat 39)
      "Vendor " ++ q ++ v ++ q ++ " not found"
  | .noDataInRange _ _ => "No data available in the specified date range"
  | .invalidDateRange _ _ => "Invalid date range"
  | .valueError m => m

/-- DataLoaderService.get_vendor_data: the vendor slice with optional
inclusive date filtering; VendorNotFoundError when the vendor has no rows
at all, NoDataInRangeError when the date filter empties the slice. -/
def getVendorData (ds : Dataset) (vendor : String) (s e : Option Date) :
    Except AppErr (List Record) :=
  let df := vendorRows ds vendor
  if df.isEmpty then .error (.vendorNotFound vendor (getVendors ds))
  else
    let df2 := filterRange df s e
    if df2.isEmpty then .error (.noDataInRange s e)
    else .ok df2

/-- DataLoaderService.get_data_by_date_range: all rows inside the optional
inclusive range; NoDataInRangeError when the filtered frame is empty. -/
def getDataByDateRange (ds : Dataset) (s e : Option Date) :
    Except AppErr (List Record) :=
  let df := filterRange ds s e
  if df.isEmpty then .error (.noDataInRange s e) else .ok df

/-- DataLoaderService.get_drawdown_periods: rows with drawdown_flag == 1,
optionally narrowed to one vendor.  The narrowing reproduces the Python
truthiness test if vendor: - an empty vendor string does not filter. -/
def getDrawdownPeriods (ds : Dataset) (vendor : Option String) : List Record :=
  let df := ds.filter (fun r => r.drawdown_flag == 1)
  match vendor with
  | some v => if v ≠ "" then df.filter (fun r => r.vendor == v) else df
  | none => df

/-- Computed metrics for a single vendor (dataclass VendorMetrics).
Fields keep the source names; std fields carry the squared encoding
(suffix _sq) described in the file header, the correlation field the
signed-square encoding and the volatility field the squared coefficient
of variation. -/
structure VendorMetrics where
  vendor : String
  universes : List String
  record_count : ℕ
  date_range : Date × Date
  feature_x_mean : ℚ
  feature_x_std_sq : Option ℚ
  feature_y_mean : ℚ
  feature_y_std_sq : Option ℚ
  signal_strength_mean : ℚ
  signal_strength_std_sq : Option ℚ
  signal_strength_min : ℚ
  signal_strength_max : ℚ
  drawdown_count : ℕ
  drawdown_rate : ℚ
  feature_xy_correlation : Option ℚ
  signal_volatility : Option ℚ
  avg_signal_during_drawdown : Option ℚ
  avg_signal_outside_drawdown : Option ℚ
deriving DecidableEq

/-- Minimum date of a slice (pandas column min; slices are non-empty where
this is used). -/
def minDateOf (df : List Record) : Date :=
  match df.map (·.date) with
  | [] => dateMin
  | h :: t => t.foldl (fun a b => if dle b a then b else a) h

/-- Maximum date of a slice. -/
def maxDateOf (df : List Record) : Date :=
  match df.map (·.date) with
  | [] => dateMax
  | h :: t => t.foldl (fun a b => if dle a b then b else a) h

/-- The statistics block of MetricsService.get_vendor_metrics, computed on
the non-empty filtered slice (lines 141-244 of metrics_service.py).  The
defensive required-columns check of the source cannot fail here because
Record carries every column. -/
def computeVendorMetrics (vendor : String) (df : List Record) : VendorMetrics :=
  let n := df.length
  let fx := df.map (·.feature_x)
  let fy := df.map (·.feature_y)
  let sigs := df.map (·.signal_strength)
  let signal_mean := qmean sigs
  let dd := df.filter (fun r => r.drawdown_flag == 1)
  let ndd := df.filter (fun r => r.drawdown_flag == 0)
  let drawdown_count := (df.map (·.drawdown_flag)).foldr (· + ·) 0
  { vendor := vendor
    universes := uniqueFS (df.map (·.univ))
    record_count := n
    date_range := (minDateOf df, maxDateOf df)
    feature_x_mean := round4 (qmean fx)
    feature_x_std_sq := if 1 < n then pvar fx else some 0
    feature_y_mean := round4 (qmean fy)
    feature_y_std_sq := if 1 < n then pvar fy else some 0
    signal_strength_mean := round4 signal_mean
    signal_strength_std_sq := if 1 < n then pvar sigs else some 0
    signal_strength_min := round4 (qminimum sigs)
    signal_strength_max := round4 (qmaximum sigs)
    drawdown_count := drawdown_count
    drawdown_rate := round4 ((drawdown_count : ℚ) / n)
    feature_xy_correlation := if 1 < n then pcorrSgnSq fx fy else none
    signal_volatility :=
      if (1 : ℚ) / 10 ^ 10 < |signal_mean| then
        some ((if 1 < n then svar sigs else 0) / signal_mean ^ 2)
      else none
    avg_signal_during_drawdown :=
      if 0 < dd.length then some (round4 (qmean (dd.map (·.signal_strength)))) else none
    avg_signal_outside_drawdown :=
      if 0 < ndd.length then some (round4 (qmean (ndd.map (·.signal_strength)))) else none }

/-- The date-range precondition of get_vendor_metrics: both dates given
and start_date >= end_date. -/
def invalidRange (s e : Option Date) : Bool :=
  match s, e with
  | some a, some b => dle b a
  | _, _ => false

/-- MetricsService.get_vendor_metrics: validates the date range, fetches
the vendor slice (whose two error cases propagate), re-checks emptiness
(unreachable, kept to mirror the source) and computes the statistics. -/
def getVendorMetrics (ds : Dataset) (vendor : String) (s e : Option Date) :
    Except AppErr VendorMetrics :=
  match s, e with
  | some a, some b =>
    if dle b a then .error (.invalidDateRange a b)
    else do
      let df ← getVendorData ds vendor s e
      if df.isEmpty then .error (.vendorNotFound vendor (getVendors ds))
      else .ok (computeVendorMetrics vendor df)
  | _, _ => do
      let df ← getVendorData ds vendor s e
      if df.isEmpty then .error (.vendorNotFound vendor (getVendors ds))
      else .ok (computeVendorMetrics vendor df)

/-- Aggregated metrics for a time period (dataclass PeriodMetrics); the
std field carries the squared encoding with none for NaN, and the two
per-vendor dictionaries are association lists in key order. -/
structure PeriodMetrics where
  start_date : Date
  end_date : Date
  record_count : ℕ
  vendor_count : ℕ
  avg_signal_strength : ℚ
  signal_strength_std_sq : Option ℚ
  total_drawdown_events : ℕ
  vendor_avg_signals : List (String × ℚ)
  vendor_drawdown_rates : List (String × ℚ)
deriving DecidableEq

/-- Rows of the slice belonging to one vendor (a pandas groupby group). -/
def groupOf (df : List Record) (v : String) : List Record :=
  df.filter (fun r => r.vendor == v)

/-- Sum of the drawdown flags of a slice. -/
def flagSum (df : List Record) : ℕ := (df.map (·.drawdown_flag)).foldr (· + ·) 0

/-- MetricsService.get_period_metrics: fetches the date slice from the
loader - whose NoDataInRangeError propagates, there is no handler - and
aggregates.  The empty-frame branch of the source (return of zeroed
metrics) is kept although getDataByDateRange never returns an empty ok
value.  Group keys follow first-seen order, which on a loaded (vendor,
date)-sorted frame coincides with the sorted order pandas groupby uses. -/
def getPeriodMetrics (ds : Dataset) (s e : Option Date) :
    Except AppErr PeriodMetrics := do
  let df ← getDataByDateRange ds s e
  if df.isEmpty then
    .ok { start_date := s.getD dateMin
          end_date := e.getD dateMax
          record_count := 0
          vendor_count := 0
          avg_signal_strength := 0
          signal_strength_std_sq := some 0
          total_drawdown_events := 0
          vendor_avg_signals := []
          vendor_drawdown_rates := [] }
  else
    let vs := uniqueFS (df.map (·.vendor))
    .ok { start_date := minDateOf df
          end_date := maxDateOf df
          record_count := df.length
          vendor_count := vs.length
          avg_signal_strength := round4 (qmean (df.map (·.signal_strength)))
          signal_strength_std_sq := pvar (df.map (·.signal_strength))
          total_drawdown_events := flagSum df
          vendor_avg_signals :=
            vs.map (fun v => (v, round4 (qmean ((groupOf df v).map (·.signal_strength)))))
          vendor_drawdown_rates :=
            vs.map (fun v => (v, round4 ((flagSum (groupOf df v) : ℚ) / (groupOf df v).length))) }

/-- Stable insertion of an element into a list already arranged by le. -/
def insSorted (le : α → α → Bool) (a : α) : List α → List α
  | [] => [a]
  | b :: t => if le a b then a :: b :: t else b :: insSorted le a t

/-- Stable insertion sort; same stable reordering contract as Python
sorted (the checked ranking properties are insensitive to which stable
sort produced the arrangement). -/
def sortByB (le : α → α → Bool) (l : List α) : List α := l.foldr (insSorted le) []

/-- Positional ranks from k, the enumerate(sorted(...), 1) comprehension:
each element of the arranged list is paired with its 1-based position. -/
def rankFrom (k : ℕ) : List α → List (α × ℕ)
  | [] => []
  | a :: t => (a, k) :: rankFrom (k + 1) t

/-- Ranking dictionary: arrange the scored pairs with the given order,
drop the scores, pair names with ranks 1..n. -/
def rankMap (le : String × ℚ → String × ℚ → Bool) (l : List (String × ℚ)) :
    List (String × ℕ) :=
  rankFrom 1 ((sortByB le l).map Prod.fst)

/-- First key attaining the maximal value, Python max(dict, key=...) with
its first-wins tie-break; none on the empty dictionary, where Python
raises ValueError. -/
def maxByVal (l : List (String × ℚ)) : Option String :=
  match l with
  | [] => none
  | h :: t => some ((t.foldl (fun b p => if b.2 < p.2 then p else b) h).1)

/-- First key attaining the minimal value (Python min(dict, key=...)). -/
def minByVal (l : List (String × ℚ)) : Option String :=
  match l with
  | [] => none
  | h :: t => some ((t.foldl (fun b p => if p.2 < b.2 then p else b) h).1)

/-- Comparative analysis across vendors (dataclass ComparativeMetrics);
the two rankings are association lists from vendor to 1-based rank. -/
structure ComparativeMetrics where
  vendors : List String
  best_avg_signal : String
  lowest_drawdown_rate : String
  highest_signal_volatility : String
  ranking_by_avg_signal : List (String × ℕ)
  ranking_by_stability : List (String × ℕ)
deriving DecidableEq

/-- Error-propagating map over a list, the Python for-loop that stops at
the first raised exception. -/
def exMapM (f : α → Except ε β) : List α → Except ε (List β)
  | [] => .ok []
  | a :: t => do
    let b ← f a
    let bs ← exMapM f t
    .ok (b :: bs)

/-- MetricsService.get_comparative_metrics: per-vendor metrics for every
vendor, best/lowest/highest picks and the two rankings.  max on the empty
score dictionary raises ValueError; the volatility fallback to vendors[0]
is only reached with a non-empty vendor list (otherwise the max above
raised first), so the headD default is unreachable. -/
def getComparativeMetrics (ds : Dataset) : Except AppErr ComparativeMetrics := do
  let vendors := getVendors ds
  let vm ← exMapM (fun v => do
      let m ← getVendorMetrics ds v none none
      .ok (v, m)) vendors
  let signal_scores := vm.map (fun p => (p.1, p.2.signal_strength_mean))
  let drawdown_rates := vm.map (fun p => (p.1, p.2.drawdown_rate))
  let volatilities := vm.filterMap (fun p =>
    match p.2.signal_volatility with
    | some q => some (p.1, q)
    | none => none)
  match maxByVal signal_scores, minByVal drawdown_rates with
  | some best, some lowest =>
    let highest := match maxByVal volatilities with
      | some h => h
      | none => vendors.headD ""
    .ok { vendors := vendors
          best_avg_signal := best
          lowest_drawdown_rate := lowest
          highest_signal_volatility := highest
          ranking_by_avg_signal := rankMap (fun a b => b.2 ≤ a.2) signal_scores
          ranking_by_stability := rankMap (fun a b => a.2 ≤ b.2) volatilities }
  | _, _ => .error (.valueError "max() arg is an empty sequence")

/-- Result of MetricsService.get_drawdown_analysis: the returned dict,
with by_vendor = none when the key is omitted (empty slice). -/
structure DrawdownAnalysis where
  total_drawdown_events : ℕ
  vendors_affected : List String
  avg_signal_during_drawdown : Option ℚ
  drawdown_dates : List String
  by_vendor : Option (List (String × ℕ))
deriving DecidableEq

/-- MetricsService.get_drawdown_analysis: statistics over the drawdown
slice; the empty slice yields the zeroed dict without by_vendor, and no
error is ever raised (unknown vendors simply give the empty slice). -/
def getDrawdownAnalysis (ds : Dataset) (vendor : Option String) : DrawdownAnalysis :=
  let df := getDrawdownPeriods ds vendor
  if df.isEmpty then
    { total_drawdown_events := 0
      vendors_affected := []
      avg_signal_during_drawdown := none
      drawdown_dates := []
      by_vendor := none }
  else
    { total_drawdown_events := df.length
      vendors_affected := uniqueFS (df.map (·.vendor))
      avg_signal_during_drawdown := some (round4 (qmean (df.map (·.signal_strength))))
      drawdown_dates := df.map (fun r => dateToStr r.date)
      by_vendor := some ((uniqueFS (df.map (·.vendor))).map (fun v => (v, (groupOf df v).length))) }

/-- The six recognized query intents (enum QueryIntent). -/
inductive QueryIntent where
  | vendor_metrics
  | period_metrics
  | compare_vendors
  | drawdown_analysis
  | list_vendors
  | unknown
deriving DecidableEq

/-- Parsed natural-language query (dataclass ParsedQuery). -/
structure ParsedQuery where
  intent : QueryIntent
  vendors : List String
  start_date : Option Date
  end_date : Option Date
  raw_query : String
deriving DecidableEq

/-- Payload of a query result: the data dictionaries the five executor
helpers build (the suggestions list for unknown queries included). -/
inductive Payload where
  | vendorsData (vendors : List String) (count : ℕ)
  | vendorData (results : List (String × VendorMetrics))
  | periodData (pm : PeriodMetrics)
  | comparisonData (cm : ComparativeMetrics)
  | drawdownData (d : DrawdownAnalysis)
  | suggestionsData (xs : List String)
deriving DecidableEq

/-- Result of a processed query (dataclass QueryResult); data is none for
the failure results the source builds with data=None. -/
structure QueryResult where
  intent : QueryIntent
  data : Option Payload
  explanation : String
  success : Bool
  error : Option String
deriving DecidableEq

/-- QueryExecutor._list_vendors. -/
def execListVendors (ds : Dataset) : QueryResult :=
  let vendors := getVendors ds
  { intent := .list_vendors
    data := some (.vendorsData vendors vendors.length)
    explanation := "Found " ++ toString vendors.length ++ " vendors: " ++
      String.intercalate ", " vendors
    success := true
    error := none }

/-- QueryExecutor._vendor_metrics: the graceful no-vendor failure result,
otherwise per-vendor metrics gathered in a loop whose exceptions
propagate to the dispatch boundary. -/
def execVendorMetrics (ds : Dataset) (p : ParsedQuery) : Except AppErr QueryResult :=
  if p.vendors.isEmpty then
    .ok { intent := .vendor_metrics
          data := none
          explanation := "No vendor specified. Please mention a vendor name."
          success := false
          error := some "No vendor specified" }
  else do
    let results ← exMapM (fun v => do
        let m ← getVendorMetrics ds v p.start_date p.end_date
        .ok (v, m)) p.vendors
    .ok { intent := .vendor_metrics
          data := some (.vendorData results)
          explanation := "Retrieved metrics for " ++ String.intercalate ", " p.vendors
          success := true
          error := none }

/-- QueryExecutor._period_metrics; the period computation can raise
NoDataInRangeError, which propagates to the dispatch boundary. -/
def execPeriodMetrics (ds : Dataset) (p : ParsedQuery) : Except AppErr QueryResult := do
  let period ← getPeriodMetrics ds p.start_date p.end_date
  let dateDesc :=
    match p.start_date, p.end_date with
    | some a, some b => "from " ++ dateToStr a ++ " to " ++ dateToStr b
    | some a, none => "from " ++ dateToStr a
    | _, _ => ""
  .ok { intent := .period_metrics
        data := some (.periodData period)
        explanation := "Aggregated metrics " ++ dateDesc ++ " across " ++
          toString period.vendor_count ++ " vendors"
        success := true
        error := none }

/-- QueryExecutor._compare_vendors. -/
def execCompareVendors (ds : Dataset) : Except AppErr QueryResult := do
  let comparison ← getComparativeMetrics ds
  .ok { intent := .compare_vendors
        data := some (.comparisonData comparison)
        explanation := "Best signal: " ++ comparison.best_avg_signal ++
          ", Most stable: " ++ comparison.lowest_drawdown_rate
        success := true
        error := none }

/-- QueryExecutor._drawdown_analysis: first extracted vendor if any. -/
def execDrawdownAnalysis (ds : Dataset) (p : ParsedQuery) : QueryResult :=
  let vendor := p.vendors.head?
  let analysis := getDrawdownAnalysis ds vendor
  let vendorDesc :=
    match vendor with
    | some v => if v ≠ "" then "for " ++ v else "across all vendors"
    | none => "across all vendors"
  { intent := .drawdown_analysis
    data := some (.drawdownData analysis)
    explanation := "Drawdown analysis " ++ vendorDesc ++ ": " ++
      toString analysis.total_drawdown_events ++ " events"
    success := true
    error := none }

/-- QueryExecutor._unknown_query. -/
def execUnknownQuery : QueryResult :=
  { intent := .unknown
    data := some (.suggestionsData
      ["Try: metrics for AlphaSignals",
       "Try: compare all vendors",
       "Try: show drawdown periods",
       "Try: metrics in January 2020"])
    explanation := "I could not understand your query. See suggestions."
    success := false
    error := some "Unknown query intent" }

/-- The body of the try block of QueryExecutor.execute: dispatch on the
parsed intent to the helper computations; an error value models an
exception travelling up to the dispatch boundary. -/
def dispatch (ds : Dataset) (p : ParsedQuery) : Except AppErr QueryResult :=
  match p.intent with
  | .list_vendors => .ok (execListVendors ds)
  | .vendor_metrics => execVendorMetrics ds p
  | .period_metrics => execPeriodMetrics ds p
  | .compare_vendors => execCompareVendors ds
  | .drawdown_analysis => .ok (execDrawdownAnalysis ds p)
  | .unknown => .ok execUnknownQuery

/-- QueryExecutor.execute: the try/except boundary.  Every exception of
the delegated computation becomes an unsuccessful QueryResult carrying
the exception message; nothing escapes. -/
def execute (ds : Dataset) (p : ParsedQuery) : QueryResult :=
  match dispatch ds p with
  | .ok r => r
  | .error e =>
    { intent := p.intent
      data := none
      explanation := "Error: " ++ errMsg e
      success := false
      error := some (errMsg e) }

/-- ASCII digit test, the d character class on the ASCII text the regex
patterns of RegexQueryParser scan. -/
def isDig (c : Char) : Bool := 48 ≤ c.toNat && c.toNat ≤ 57

/-- ASCII hyphen test. -/
def isDash (c : Char) : Bool := c.toNat == 45

/-- ASCII whitespace test, the s character class. -/
def isSpaceChar (c : Char) : Bool :=
  c.toNat == 32 || c.toNat == 9 || c.toNat == 10 || c.toNat == 13 ||
  c.toNat == 12 || c.toNat == 11

/-- ASCII word-character test, the w character class used by the word
boundary assertions. -/
def isWordChar (c : Char) : Bool :=
  (48 ≤ c.toNat && c.toNat ≤ 57) || (65 ≤ c.toNat && c.toNat ≤ 90) ||
  (97 ≤ c.toNat && c.toNat ≤ 122) || c.toNat == 95

/-- Numeric value of an ASCII digit character. -/
def digVal (c : Char) : ℕ := c.toNat - 48

/-- Value of two digit characters. -/
def val2 (a b : Char) : ℕ := digVal a * 10 + digVal b

/-- Value of four digit characters. -/
def val4 (a b c d : Char) : ℕ :=
  digVal a * 1000 + digVal b * 100 + digVal c * 10 + digVal d

/-- The ISO pattern dddd-dd-dd anchored at the head of the text: the
numeric (year, month, day) triple when the next ten characters match. -/
def isoNumsAt (cs : List Char) : Option (ℕ × ℕ × ℕ) :=
  match cs with
  | a :: b :: c :: d :: e :: f :: g :: h :: i :: j :: _ =>
    if isDig a && isDig b && isDig c && isDig d && isDash e && isDig f &&
        isDig g && isDash h && isDig i && isDig j then
      some (val4 a b c d, val2 f g, val2 i j)
    else none
  | _ => none

/-- Fuel-driven scan behind findAllISO (structural recursion on the fuel
keeps the definition kernel-reducible; the fuel never runs out because
every step consumes at least one character). -/
def findAllISOF : ℕ → List Char → List (ℕ × ℕ × ℕ)
  | 0, _ => []
  | _ + 1, [] => []
  | fuel + 1, c :: rest =>
    match isoNumsAt (c :: rest) with
    | some t => t :: findAllISOF fuel (rest.drop 9)
    | none => findAllISOF fuel rest

/-- re.findall of the ISO pattern: left-to-right non-overlapping matches,
each reported as its numeric fields. -/
def findAllISO (cs : List Char) : List (ℕ × ℕ × ℕ) := findAllISOF cs.length cs

/-- Consume a literal pattern from the head of the text. -/
def dropPat : List Char → List Char → Option (List Char)
  | [], cs => some cs
  | _ :: _, [] => none
  | p :: ps, c :: cs => if p == c then dropPat ps cs else none

/-- The MONTHS mapping of RegexQueryParser, as the ordered alternation of
the month-name pattern. -/
def monthTable : List (List Char × ℕ) :=
  [("january".toList, 1), ("february".toList, 2), ("march".toList, 3),
   ("april".toList, 4), ("may".toList, 5), ("june".toList, 6),
   ("july".toList, 7), ("august".toList, 8), ("september".toList, 9),
   ("october".toList, 10), ("november".toList, 11), ("december".toList, 12)]

/-- First alternative of the table matching at the head of the text (no
month name is a prefix of another, so the first match is the only one). -/
def lookupPat : List (List Char × ℕ) → List Char → Option (ℕ × List Char)
  | [], _ => none
  | (pat, v) :: t, cs =>
    match dropPat pat cs with
    | some rest => some (v, rest)
    | none => lookupPat t cs

/-- Word boundary after a digit: end of text or a non-word character. -/
def boundaryAfter (cs : List Char) : Bool :=
  match cs with
  | [] => true
  | x :: _ => !isWordChar x

/-- The whitespace-then-four-digit-year part of the pattern: at least one
whitespace character, exactly four digits, a word boundary after them. -/
def yearAfterSpaces (after : List Char) : Option ℕ :=
  let sp := after.takeWhile isSpaceChar
  if sp.isEmpty then none
  else
    match after.drop sp.length with
    | a :: b :: c :: d :: rest2 =>
      if isDig a && isDig b && isDig c && isDig d && boundaryAfter rest2 then
        some (val4 a b c d)
      else none
    | _ => none

/-- The month-name, whitespace, four-digit-year pattern anchored at the
head of the text (the word boundary after the year included; the boundary
before the month name is checked by the caller). -/
def monthYearAt (cs : List Char) : Option (ℕ × ℕ) :=
  (lookupPat monthTable cs).bind
    (fun pr => (yearAfterSpaces pr.2).map (fun y => (pr.1, y)))

/-- Scan for the first month-year match; the boolean carries whether the
previous character is a word character (the word boundary before the
month name). -/
def fmyAux : Bool → List Char → Option (ℕ × ℕ)
  | _, [] => none
  | prevW, c :: rest =>
    match (if prevW then none else monthYearAt (c :: rest)) with
    | some r => some r
    | none => fmyAux (isWordChar c) rest

/-- re.search of the month-year pattern over the whole text. -/
def findMonthYear (cs : List Char) : Option (ℕ × ℕ) := fmyAux false cs

/-- The MONTH_DAYS table of RegexQueryParser: days per month with the
non-leap default, February always 28.  Unlisted keys (unreachable, the
month always comes from MONTHS) give 0. -/
def monthDays (m : ℕ) : ℕ :=
  match m with
  | 1 => 31 | 2 => 28 | 3 => 31 | 4 => 30 | 5 => 31 | 6 => 30
  | 7 => 31 | 8 => 31 | 9 => 30 | 10 => 31 | 11 => 30 | 12 => 31
  | _ => 0

/-- Gregorian leap-year rule. -/
def isLeap (y : ℕ) : Bool := (y % 4 == 0 && y % 100 != 0) || y % 400 == 0

/-- Modelled from the spec: the true number of days of a calendar month
(full calendar-month bounds), including the leap-year February. -/
def daysInMonth (y m : ℕ) : ℕ :=
  match m with
  | 1 => 31 | 2 => if isLeap y then 29 else 28 | 3 => 31 | 4 => 30
  | 5 => 31 | 6 => 30 | 7 => 31 | 8 => 31 | 9 => 30 | 10 => 31
  | 11 => 30 | 12 => 31
  | _ => 0

/-- The validation of the Python datetime.date constructor (and of
date.fromisoformat): year 1..9999, month 1..12, day within the month.
none models the ValueError the constructor raises. -/
def mkDateOpt (y m d : ℕ) : Option Date :=
  if 1 ≤ y && y ≤ 9999 && 1 ≤ m && m ≤ 12 && 1 ≤ d && d ≤ daysInMonth y m then
    some ⟨y, m, d⟩
  else none

/-- date.fromisoformat on a matched ISO triple. -/
def isoToDate (t : ℕ × ℕ × ℕ) : Option Date := mkDateOpt t.1 t.2.1 t.2.2

/-- RegexQueryParser._extract_dates on the lowercased query text (parse
lowercases the query before extraction).  The outer none models a
ValueError escaping from date construction; otherwise the pair is the
(start_date, end_date) the method returns: two or more ISO dates give a
positional pair, exactly one gives only the start, and with none at all
the first month-year match expands to the first day through the
MONTH_DAYS day of that month. -/
def extractDates (cs : List Char) : Option (Option Date × Option Date) :=
  match findAllISO cs with
  | t1 :: t2 :: _ => do
    let s ← isoToDate t1
    let e ← isoToDate t2
    some (some s, some e)
  | [t1] => do
    let s ← isoToDate t1
    some (some s, none)
  | [] =>
    match findMonthYear cs with
    | some (m, y) => do
      let s ← mkDateOpt y m 1
      let e ← mkDateOpt y m (monthDays m)
      some (some s, some e)
    | none => some (none, none)

/-! Concrete data used by the scenario claims and the witnesses: the
two-vendor dataset of the spec test scenario (section 8). -/

/-- First Vendor_A row of the scenario dataset. -/
def rA1 : Record := ⟨⟨2023, 1, 1⟩, "Vendor_A", "Equities", 1, 2, 1 / 2, 0⟩

/-- Second Vendor_A row of the scenario dataset. -/
def rA2 : Record := ⟨⟨2023, 1, 2⟩, "Vendor_A", "Equities", 2, 4, 3 / 5, 1⟩

/-- First Vendor_B row of the scenario dataset. -/
def rB1 : Record := ⟨⟨2023, 1, 1⟩, "Vendor_B", "FX", 4 / 5, 9 / 5, 2 / 5, 0⟩

/-- Second Vendor_B row of the scenario dataset. -/
def rB2 : Record := ⟨⟨2023, 1, 2⟩, "Vendor_B", "FX", 9 / 10, 19 / 10, 9 / 20, 0⟩

/-- The scenario dataset of spec section 8. -/
def dsA : Dataset := [rA1, rA2, rB1, rB2]

/-- Single-vendor two-day dataset (used to reach a one-row period slice). -/
def dsB : Dataset := [rA1, rA2]

/-! Characterizations of the service functions used by several proofs. -/

/-- Branch normal form of getVendorData. -/
theorem getVendorData_eq (ds : Dataset) (v : String) (s e : Option Date) :
    getVendorData ds v s e =
      if vendorRows ds v = [] then .error (.vendorNotFound v (getVendors ds))
      else if filterRange (vendorRows ds v) s e = [] then .error (.noDataInRange s e)
      else .ok (filterRange (vendorRows ds v) s e) := by
  simp only [getVendorData, List.isEmpty_iff]

/-- Bind of an error value in the Except monad. -/
theorem exbind_error (e : ε) (f : α → Except ε β) :
    (Except.error e >>= f) = (Except.error e : Except ε β) := rfl

/-- Bind of an ok value in the Except monad. -/
theorem exbind_ok (a : α) (f : α → Except ε β) : (Except.ok a >>= f) = f a := rfl

/-- An ok result of getVendorMetrics comes from the non-empty filtered
vendor slice, and the returned metrics are computed on that slice. -/
theorem getVendorMetrics_ok (ds : Dataset) (v : String) (s e : Option Date)
    (m : VendorMetrics) (h : getVendorMetrics ds v s e = .ok m) :
    filterRange (vendorRows ds v) s e ≠ [] ∧
      m = computeVendorMetrics v (filterRange (vendorRows ds v) s e) := by
  have hcore : ∀ (h2 : (do
      let df ← getVendorData ds v s e
      if df.isEmpty then
        Except.error (.vendorNotFound v (getVendors ds))
      else Except.ok (computeVendorMetrics v df)) = Except.ok m),
      filterRange (vendorRows ds v) s e ≠ [] ∧
        m = computeVendorMetrics v (filterRange (vendorRows ds v) s e) := by
    intro h2
    rw [getVendorData_eq] at h2
    by_cases h3 : vendorRows ds v = []
    · rw [if_pos h3, exbind_error] at h2
      exact absurd h2 (by simp)
    · rw [if_neg h3] at h2
      by_cases h4 : filterRange (vendorRows ds v) s e = []
      · rw [if_pos h4, exbind_error] at h2
        exact absurd h2 (by simp)
      · rw [if_neg h4, exbind_ok] at h2
        simp only [List.isEmpty_iff, h4, if_false, if_neg h4, Except.ok.injEq] at h2
        exact ⟨h4, h2.symm⟩
  match s, e with
  | some a, some b =>
    simp only [getVendorMetrics] at h
    cases hb : dle b a with
    | true => rw [if_pos hb] at h; exact absurd h (by simp)
    | false => rw [if_neg (by simp [hb])] at h; exact hcore h
  | some a, none => exact hcore h
  | none, some b => exact hcore h
  | none, none => exact hcore h

/-- Record count of the computed metrics is the slice length. -/
theorem computeVendorMetrics_record_count (v : String) (df : List Record) :
    (computeVendorMetrics v df).record_count = df.length := rfl

/-- getVendorMetrics with a valid (or absent) date range is the slice
fetch followed by the computation. -/
theorem getVendorMetrics_eq_core (ds : Dataset) (v : String) (s e : Option Date)
    (hinv : invalidRange s e = false) :
    getVendorMetrics ds v s e = (do
      let df ← getVendorData ds v s e
      if df.isEmpty then Except.error (.vendorNotFound v (getVendors ds))
      else Except.ok (computeVendorMetrics v df)) := by
  match s, e with
  | some a, some b =>
    simp only [invalidRange] at hinv
    simp only [getVendorMetrics]
    rw [if_neg (by simp [hinv])]
  | some a, none => rfl
  | none, some b => rfl
  | none, none => rfl

/-- C1: the claim of the spec - that get_period_metrics converts an empty
date slice into zeroed PeriodMetrics instead of propagating
NoDataInRangeError - fails on the code: get_data_by_date_range raises
NoDataInRangeError on an empty filter result and get_period_metrics has
no handler, so the error always propagates and the zeroed-metrics branch
of the source is unreachable.  This theorem evaluates the code on every
failing input: whenever the inclusive date filter matches zero rows, the
call errors with NoDataInRangeError. -/
theorem period_metrics_empty_range_raises (ds : Dataset) (s e : Option Date)
    (h : filterRange ds s e = []) :
    getPeriodMetrics ds s e = .error (.noDataInRange s e) := by
  have h1 : getDataByDateRange ds s e = .error (.noDataInRange s e) := by
    simp [getDataByDateRange, h]
  simp only [getPeriodMetrics]
  rw [h1, exbind_error]

/-- C1 witness: the scenario dataset holds 2023 data only, so a period
query starting 2024-01-01 matches zero rows and the error propagates. -/
theorem period_metrics_empty_range_raises_witness :
    getPeriodMetrics dsB (some ⟨2024, 1, 1⟩) none =
      .error (.noDataInRange (some ⟨2024, 1, 1⟩) none) :=
  period_metrics_empty_range_raises dsB (some ⟨2024, 1, 1⟩) none rfl

/-- C2: get_vendor_metrics raises exactly one of three errors with the
claimed precedence: InvalidDateRangeError when both dates are given and
the start is not strictly before the end (dle end start, so equal dates
fail), regardless of the dataset; otherwise VendorNotFoundError when the
vendor has zero rows in the full dataset; otherwise NoDataInRangeError
when the inclusive date filter empties the vendor slice; otherwise the
call succeeds with metrics computed over the non-empty slice. -/
theorem vendor_metrics_error_precedence (ds : Dataset) (v : String) (s e : Option Date) :
    (∀ a b, s = some a → e = some b → dle b a = true →
      getVendorMetrics ds v s e = .error (.invalidDateRange a b)) ∧
    (invalidRange s e = false → vendorRows ds v = [] →
      getVendorMetrics ds v s e = .error (.vendorNotFound v (getVendors ds))) ∧
    (invalidRange s e = false → vendorRows ds v ≠ [] →
      filterRange (vendorRows ds v) s e = [] →
      getVendorMetrics ds v s e = .error (.noDataInRange s e)) ∧
    (invalidRange s e = false → vendorRows ds v ≠ [] →
      filterRange (vendorRows ds v) s e ≠ [] →
      getVendorMetrics ds v s e =
        .ok (computeVendorMetrics v (filterRange (vendorRows ds v) s e))) := by
  refine ⟨?_, ?_, ?_, ?_⟩
  · intro a b hs he hba
    subst hs; subst he
    simp only [getVendorMetrics]
    rw [if_pos hba]
  · intro hinv hvr
    rw [getVendorMetrics_eq_core ds v s e hinv, getVendorData_eq, if_pos hvr,
      exbind_error]
  · intro hinv hvr hfil
    rw [getVendorMetrics_eq_core ds v s e hinv, getVendorData_eq, if_neg hvr,
      if_pos hfil, exbind_error]
  · intro hinv hvr hfil
    rw [getVendorMetrics_eq_core ds v s e hinv, getVendorData_eq, if_neg hvr,
      if_neg hfil, exbind_ok]
    simp [List.isEmpty_iff, hfil]

/-- C2 witness: the four cases of the precedence on the scenario dataset:
a backwards range (2023-01-10 to 2023-01-01) fails the date check even
though the vendor exists, an unknown vendor fails with VendorNotFound, a
known vendor with an out-of-data range (from 2024-01-01) fails with
NoDataInRange, and the unfiltered known-vendor query succeeds. -/
theorem vendor_metrics_error_precedence_witness :
    getVendorMetrics dsA "Vendor_A" (some ⟨2023, 1, 10⟩) (some ⟨2023, 1, 1⟩) =
      .error (.invalidDateRange ⟨2023, 1, 10⟩ ⟨2023, 1, 1⟩) ∧
    getVendorMetrics dsA "Nope" none none =
      .error (.vendorNotFound "Nope" ["Vendor_A", "Vendor_B"]) ∧
    getVendorMetrics dsA "Vendor_A" (some ⟨2024, 1, 1⟩) none =
      .error (.noDataInRange (some ⟨2024, 1, 1⟩) none) ∧
    getVendorMetrics dsA "Vendor_A" none none =
      .ok (computeVendorMetrics "Vendor_A" [rA1, rA2]) := by
  refine ⟨?_, ?_, ?_, ?_⟩
  · exact (vendor_metrics_error_precedence dsA "Vendor_A"
      (some ⟨2023, 1, 10⟩) (some ⟨2023, 1, 1⟩)).1 _ _ rfl rfl rfl
  · exact (vendor_metrics_error_precedence dsA "Nope" none none).2.1 rfl rfl
  · exact (vendor_metrics_error_precedence dsA "Vendor_A"
      (some ⟨2024, 1, 1⟩) none).2.2.1 rfl (by decide) rfl
  · exact (vendor_metrics_error_precedence dsA "Vendor_A" none none).2.2.2 rfl
      (by decide) (by decide)

/-- C6: the claim - that the period aggregation applies the same n greater
than 1 guard as the vendor calculator, giving exactly 0.0 for a one-row
slice - fails on the code: metrics_service.py line 305 computes
round(float(df.std()), 4) with no length guard, and the pandas sample
standard deviation of a single row is NaN.  On the single-vendor dataset,
the one-day period 2023-01-01 matches exactly one row and the computed
signal_strength_std is NaN (none in the model) instead of 0.0. -/
theorem period_std_single_row_nan :
    ∃ pm, getPeriodMetrics dsB (some ⟨2023, 1, 1⟩) (some ⟨2023, 1, 1⟩) = .ok pm ∧
      pm.record_count = 1 ∧ pm.signal_strength_std_sq = none ∧
      pm.signal_strength_std_sq ≠ some 0 :=
  ⟨_, rfl, rfl, rfl, by decide⟩

/-- C7: QueryExecutor.execute is total on parsed queries and converts any
error of the delegated computation (the dispatch over the parsed intent)
into an unsuccessful QueryResult whose error and explanation carry the
exception message, while a computation that returns normally passes its
result through unchanged: the dispatch boundary never lets an error
escape. -/
theorem executor_converts_errors (ds : Dataset) (p : ParsedQuery) :
    (∀ e, dispatch ds p = .error e → execute ds p =
      { intent := p.intent
        data := none
        explanation := "Error: " ++ errMsg e
        success := false
        error := some (errMsg e) }) ∧
    (∀ r, dispatch ds p = .ok r → execute ds p = r) := by
  constructor <;> intro x hx <;> simp [execute, hx]

/-- C7 witness: a vendor_metrics query for the unknown vendor Nope makes
the delegated computation raise VendorNotFoundError, and execute returns
the unsuccessful result carrying that message. -/
theorem executor_converts_errors_witness :
    execute dsA ⟨.vendor_metrics, ["Nope"], none, none, "metrics for Nope"⟩ =
      { intent := .vendor_metrics
        data := none
        explanation := "Error: " ++ errMsg (.vendorNotFound "Nope" ["Vendor_A", "Vendor_B"])
        success := false
        error := some (errMsg (.vendorNotFound "Nope" ["Vendor_A", "Vendor_B"])) } :=
  (executor_converts_errors dsA
    ⟨.vendor_metrics, ["Nope"], none, none, "metrics for Nope"⟩).1
    (.vendorNotFound "Nope" ["Vendor_A", "Vendor_B"]) rfl

/-- C9: on the two-vendor scenario dataset of the spec, the unfiltered
Vendor_A metrics have record_count 2, drawdown_count 1, drawdown_rate
0.5, feature_x_mean 1.5 and Pearson correlation exactly 1.0 (in the
signed-square encoding of the correlation field, the encoded value is 1
exactly when the correlation itself is 1.0). -/
theorem vendor_a_scenario :
    ∃ m, getVendorMetrics dsA "Vendor_A" none none = .ok m ∧
      m.record_count = 2 ∧ m.drawdown_count = 1 ∧ m.drawdown_rate = 1 / 2 ∧
      m.feature_x_mean = 3 / 2 ∧ m.feature_xy_correlation = some 1 := by
  have h : getVendorMetrics dsA "Vendor_A" none none =
      .ok (computeVendorMetrics "Vendor_A" [rA1, rA2]) := rfl
  refine ⟨_, h, ?_, ?_, ?_, ?_, ?_⟩ <;>
    norm_num [computeVendorMetrics, rA1, rA2, pcorrSgnSq, svar, scov,
      qmean, qsum, pvar, round4, round_eq]

/-- C10: get_drawdown_analysis with a vendor name absent from the dataset
does not raise (unlike get_vendor_metrics): the drawdown slice is empty,
so the zeroed result with empty lists, null average and the by_vendor key
omitted is returned.  Vendor names are non-empty strings (spec data
model); the hypothesis excludes the empty string, on which the Python
truthiness test if vendor: would skip the filter instead. -/
theorem drawdown_unknown_vendor_empty (ds : Dataset) (v : String) (hne : v ≠ "")
    (habs : ∀ r ∈ ds, r.vendor ≠ v) :
    getDrawdownAnalysis ds (some v) =
      { total_drawdown_events := 0
        vendors_affected := []
        avg_signal_during_drawdown := none
        drawdown_dates := []
        by_vendor := none } := by
  have hdd : getDrawdownPeriods ds (some v) = [] := by
    simp only [getDrawdownPeriods]
    rw [if_pos hne]
    refine List.filter_eq_nil_iff.mpr ?_
    intro r hr
    have hmem : r ∈ ds := (List.mem_filter.mp hr).1
    simp [habs r hmem]
  simp [getDrawdownAnalysis, hdd]

/-- C10 witness: the unknown vendor Nope on the scenario dataset yields
the zeroed drawdown analysis without the by_vendor key. -/
theorem drawdown_unknown_vendor_empty_witness :
    getDrawdownAnalysis dsA (some "Nope") =
      { total_drawdown_events := 0
        vendors_affected := []
        avg_signal_during_drawdown := none
        drawdown_dates := []
        by_vendor := none } :=
  drawdown_unknown_vendor_empty dsA "Nope" (by decide) (by decide)

/-- The spec wording of the std fields: sample standard deviation with
n-1 denominator.  Stated in the squared encoding through the textbook
expansion (n * sum of squares - square of sum) / (n * (n-1)), so that
agreement with the code-side svar is an algebraic fact, not a
restatement. -/
def specSampleVarSq (xs : List ℚ) : ℚ :=
  ((xs.length : ℚ) * qsum (xs.map (fun x => x ^ 2)) - (qsum xs) ^ 2) /
    ((xs.length : ℚ) * ((xs.length : ℚ) - 1))

/-- Expansion of a shifted sum of squares. -/
theorem qsum_map_sub_sq (c : ℚ) (xs : List ℚ) :
    qsum (xs.map (fun x => (x - c) ^ 2)) =
      qsum (xs.map (fun x => x ^ 2)) - 2 * c * qsum xs + (xs.length : ℚ) * c ^ 2 := by
  induction xs with
  | nil => simp [qsum]
  | cons a t ih =>
    simp only [List.map_cons, qsum, List.foldr_cons, List.length_cons] at ih ⊢
    rw [ih]
    push_cast
    ring

/-- The code-side sample variance equals the spec-side formula for at
least two rows. -/
theorem svar_eq_specSampleVarSq (xs : List ℚ) (h : 2 ≤ xs.length) :
    svar xs = specSampleVarSq xs := by
  have hn : (xs.length : ℚ) ≠ 0 := by
    have : (2 : ℚ) ≤ (xs.length : ℚ) := by exact_mod_cast h
    linarith
  have hn1 : (xs.length : ℚ) - 1 ≠ 0 := by
    have : (2 : ℚ) ≤ (xs.length : ℚ) := by exact_mod_cast h
    linarith
  unfold svar specSampleVarSq qmean
  rw [qsum_map_sub_sq]
  field_simp
  ring

/-- Sum of a constant list. -/
theorem qsum_const (c : ℚ) (xs : List ℚ) (h : ∀ x ∈ xs, x = c) :
    qsum xs = (xs.length : ℚ) * c := by
  induction xs with
  | nil => simp [qsum]
  | cons a t ih =>
    have ha : a = c := h a (by simp)
    have ht : ∀ x ∈ t, x = c := fun x hx => h x (by simp [hx])
    simp only [qsum, List.foldr_cons, List.length_cons] at ih ⊢
    rw [ih ht, ha]
    push_cast
    ring

/-- The sample variance of a constant list is zero. -/
theorem svar_const (c : ℚ) (xs : List ℚ) (h : ∀ x ∈ xs, x = c) : svar xs = 0 := by
  cases xs with
  | nil => simp [svar, qsum]
  | cons a t =>
    have hmean : qmean (a :: t) = c := by
      have hlen : ((a :: t).length : ℚ) ≠ 0 := by
        simp only [List.length_cons]
        push_cast
        positivity
      unfold qmean
      rw [qsum_const c (a :: t) h]
      field_simp
    have hz : ∀ y ∈ (a :: t).map (fun x => (x - qmean (a :: t)) ^ 2), y = 0 := by
      intro y hy
      obtain ⟨x, hx, hxy⟩ := List.mem_map.mp hy
      rw [← hxy, hmean, h x hx]
      ring
    unfold svar
    rw [qsum_const 0 _ hz]
    simp

/-- Unfolding of the feature_x std field of the computed metrics. -/
theorem cvm_fx_std (v : String) (df : List Record) :
    (computeVendorMetrics v df).feature_x_std_sq =
      if 1 < df.length then pvar (df.map (·.feature_x)) else some 0 := rfl

/-- Unfolding of the feature_y std field. -/
theorem cvm_fy_std (v : String) (df : List Record) :
    (computeVendorMetrics v df).feature_y_std_sq =
      if 1 < df.length then pvar (df.map (·.feature_y)) else some 0 := rfl

/-- Unfolding of the signal std field. -/
theorem cvm_sig_std (v : String) (df : List Record) :
    (computeVendorMetrics v df).signal_strength_std_sq =
      if 1 < df.length then pvar (df.map (·.signal_strength)) else some 0 := rfl

/-- Unfolding of the correlation field. -/
theorem cvm_corr (v : String) (df : List Record) :
    (computeVendorMetrics v df).feature_xy_correlation =
      if 1 < df.length then pcorrSgnSq (df.map (·.feature_x)) (df.map (·.feature_y))
      else none := rfl

/-- Unfolding of the volatility field. -/
theorem cvm_volatility (v : String) (df : List Record) :
    (computeVendorMetrics v df).signal_volatility =
      if (1 : ℚ) / 10 ^ 10 < |qmean (df.map (·.signal_strength))| then
        some ((if 1 < df.length then svar (df.map (·.signal_strength)) else 0) /
          qmean (df.map (·.signal_strength)) ^ 2)
      else none := rfl

/-- C3: for every slice an ok get_vendor_metrics call computes on, a
one-row slice gets std fields exactly 0.0 (some 0 in the squared
encoding) and a null correlation; a longer slice gets the sample standard
deviation with n-1 denominator (the spec-side formula) in every std
field, and the correlation is null exactly when a feature has zero
variance, otherwise a finite value.  The three std fields are never NaN
(always isSome in the encoding); the correlation field is either null or
a finite rational, NaN being mapped to null by the code before storing. -/
theorem vendor_metrics_std_and_corr (ds : Dataset) (v : String) (s e : Option Date)
    (m : VendorMetrics) (h : getVendorMetrics ds v s e = .ok m) :
    (m.record_count = 1 →
      m.feature_x_std_sq = some 0 ∧ m.feature_y_std_sq = some 0 ∧
      m.signal_strength_std_sq = some 0 ∧ m.feature_xy_correlation = none) ∧
    (1 < m.record_count →
      m.feature_x_std_sq =
        some (specSampleVarSq ((filterRange (vendorRows ds v) s e).map (·.feature_x))) ∧
      m.feature_y_std_sq =
        some (specSampleVarSq ((filterRange (vendorRows ds v) s e).map (·.feature_y))) ∧
      m.signal_strength_std_sq =
        some (specSampleVarSq ((filterRange (vendorRows ds v) s e).map (·.signal_strength))) ∧
      (m.feature_xy_correlation = none ↔
        svar ((filterRange (vendorRows ds v) s e).map (·.feature_x)) = 0 ∨
        svar ((filterRange (vendorRows ds v) s e).map (·.feature_y)) = 0) ∧
      (¬ (svar ((filterRange (vendorRows ds v) s e).map (·.feature_x)) = 0 ∨
          svar ((filterRange (vendorRows ds v) s e).map (·.feature_y)) = 0) →
        m.feature_xy_correlation.isSome)) ∧
    (m.feature_x_std_sq.isSome ∧ m.feature_y_std_sq.isSome ∧
      m.signal_strength_std_sq.isSome) := by
  obtain ⟨hne, hm⟩ := getVendorMetrics_ok ds v s e m h
  set df := filterRange (vendorRows ds v) s e with hdf
  have hrec : m.record_count = df.length := by rw [hm]; rfl
  have hpx : ∀ l : List Record, 1 < l.length →
      pvar (l.map (·.feature_x)) = some (specSampleVarSq (l.map (·.feature_x))) := by
    intro l hl
    simp only [pvar]
    rw [if_neg (by simp; omega), svar_eq_specSampleVarSq _ (by simp; omega)]
  have hpy : ∀ l : List Record, 1 < l.length →
      pvar (l.map (·.feature_y)) = some (specSampleVarSq (l.map (·.feature_y))) := by
    intro l hl
    simp only [pvar]
    rw [if_neg (by simp; omega), svar_eq_specSampleVarSq _ (by simp; omega)]
  have hps : ∀ l : List Record, 1 < l.length →
      pvar (l.map (·.signal_strength)) =
        some (specSampleVarSq (l.map (·.signal_strength))) := by
    intro l hl
    simp only [pvar]
    rw [if_neg (by simp; omega), svar_eq_specSampleVarSq _ (by simp; omega)]
  refine ⟨?_, ?_, ?_⟩
  · intro h1
    rw [hrec] at h1
    have hnot : ¬ (1 < df.length) := by omega
    rw [hm]
    rw [cvm_fx_std, if_neg hnot, cvm_fy_std, if_neg hnot, cvm_sig_std, if_neg hnot,
      cvm_corr, if_neg hnot]
    exact ⟨rfl, rfl, rfl, rfl⟩
  · intro h1
    rw [hrec] at h1
    rw [hm]
    rw [cvm_fx_std, if_pos h1, cvm_fy_std, if_pos h1, cvm_sig_std, if_pos h1,
      cvm_corr, if_pos h1]
    refine ⟨hpx df h1, hpy df h1, hps df h1, ?_, ?_⟩
    · simp only [pcorrSgnSq]
      rw [if_neg (by simp; omega)]
      by_cases hc : svar (df.map (·.feature_x)) = 0 ∨ svar (df.map (·.feature_y)) = 0
      · rw [if_pos hc]
        simp [hc]
      · rw [if_neg hc]
        simp [hc]
    · intro hc
      simp only [pcorrSgnSq]
      rw [if_neg (by simp; omega), if_neg hc]
      simp
  · rw [hm]
    rw [cvm_fx_std, cvm_fy_std, cvm_sig_std]
    by_cases h1 : 1 < df.length
    · rw [if_pos h1, if_pos h1, if_pos h1, hpx df h1, hpy df h1, hps df h1]
      exact ⟨rfl, rfl, rfl⟩
    · rw [if_neg h1, if_neg h1, if_neg h1]
      exact ⟨rfl, rfl, rfl⟩

/-- C3 witness: the two-row Vendor_A slice of the scenario dataset: std
fields carry the spec-side sample variance and are not NaN. -/
theorem vendor_metrics_std_and_corr_witness :
    (computeVendorMetrics "Vendor_A" (filterRange (vendorRows dsA "Vendor_A") none none)).feature_x_std_sq =
      some (specSampleVarSq ((filterRange (vendorRows dsA "Vendor_A") none none).map (·.feature_x))) ∧
    (computeVendorMetrics "Vendor_A" (filterRange (vendorRows dsA "Vendor_A") none none)).feature_y_std_sq =
      some (specSampleVarSq ((filterRange (vendorRows dsA "Vendor_A") none none).map (·.feature_y))) ∧
    (computeVendorMetrics "Vendor_A" (filterRange (vendorRows dsA "Vendor_A") none none)).signal_strength_std_sq =
      some (specSampleVarSq ((filterRange (vendorRows dsA "Vendor_A") none none).map (·.signal_strength))) ∧
    ((computeVendorMetrics "Vendor_A" (filterRange (vendorRows dsA "Vendor_A") none none)).feature_xy_correlation = none ↔
      svar ((filterRange (vendorRows dsA "Vendor_A") none none).map (·.feature_x)) = 0 ∨
      svar ((filterRange (vendorRows dsA "Vendor_A") none none).map (·.feature_y)) = 0) ∧
    (¬ (svar ((filterRange (vendorRows dsA "Vendor_A") none none).map (·.feature_x)) = 0 ∨
        svar ((filterRange (vendorRows dsA "Vendor_A") none none).map (·.feature_y)) = 0) →
      (computeVendorMetrics "Vendor_A" (filterRange (vendorRows dsA "Vendor_A") none none)).feature_xy_correlation.isSome) :=
  (vendor_metrics_std_and_corr dsA "Vendor_A" none none
    (computeVendorMetrics "Vendor_A" (filterRange (vendorRows dsA "Vendor_A") none none))
    rfl).2.1 (by decide)

/-- Two-row constant-signal vendor dataset (signal_strength 1/2 twice). -/
def rC1 : Record := ⟨⟨2023, 1, 1⟩, "Vendor_C", "Macro", 1, 2, 1 / 2, 0⟩

/-- Second constant-signal row. -/
def rC2 : Record := ⟨⟨2023, 1, 2⟩, "Vendor_C", "Macro", 3, 4, 1 / 2, 0⟩

/-- The constant-signal dataset. -/
def dsC : Dataset := [rC1, rC2]

/-- C4: in every metrics object an ok get_vendor_metrics call returns,
signal_volatility is null exactly when the absolute value of the
unrounded signal mean is at most 1e-10; whenever the mean clears the
threshold the field is std/|mean| (carried as the squared coefficient of
variation var/mean^2, the square of the value the code rounds), and in
particular a constant signal_strength with |mean| above the threshold
yields volatility exactly 0.0 (some 0), not null. -/
theorem vendor_metrics_volatility (ds : Dataset) (v : String) (s e : Option Date)
    (m : VendorMetrics) (h : getVendorMetrics ds v s e = .ok m) :
    (m.signal_volatility = none ↔
      |qmean ((filterRange (vendorRows ds v) s e).map (·.signal_strength))| ≤ 1 / 10 ^ 10) ∧
    ((1 : ℚ) / 10 ^ 10 <
        |qmean ((filterRange (vendorRows ds v) s e).map (·.signal_strength))| →
      m.signal_volatility = some
        ((if 1 < (filterRange (vendorRows ds v) s e).length then
            svar ((filterRange (vendorRows ds v) s e).map (·.signal_strength)) else 0) /
          qmean ((filterRange (vendorRows ds v) s e).map (·.signal_strength)) ^ 2)) ∧
    (∀ c, (∀ x ∈ (filterRange (vendorRows ds v) s e).map (·.signal_strength), x = c) →
      (1 : ℚ) / 10 ^ 10 <
        |qmean ((filterRange (vendorRows ds v) s e).map (·.signal_strength))| →
      m.signal_volatility = some 0) := by
  obtain ⟨hne, hm⟩ := getVendorMetrics_ok ds v s e m h
  set df := filterRange (vendorRows ds v) s e with hdf
  rw [hm, cvm_volatility]
  refine ⟨?_, ?_, ?_⟩
  · by_cases hc : (1 : ℚ) / 10 ^ 10 < |qmean (df.map (·.signal_strength))|
    · rw [if_pos hc]
      constructor
      · intro hx
        exact (Option.some_ne_none _ hx).elim
      · intro hx
        exact ((not_le.mpr hc) hx).elim
    · rw [if_neg hc]
      exact ⟨fun _ => not_lt.mp hc, fun _ => rfl⟩
  · intro hc
    rw [if_pos hc]
  · intro c hconst hc
    rw [if_pos hc]
    have hvz : svar (df.map (·.signal_strength)) = 0 := svar_const c _ hconst
    by_cases h1 : 1 < df.length
    · rw [if_pos h1, hvz, zero_div]
    · rw [if_neg h1, zero_div]

/-- C4 witness: the constant-signal vendor Vendor_C has mean 1/2, above
the 1e-10 threshold, and volatility exactly 0.0. -/
theorem vendor_metrics_volatility_witness :
    (computeVendorMetrics "Vendor_C"
      (filterRange (vendorRows dsC "Vendor_C") none none)).signal_volatility = some 0 :=
  (vendor_metrics_volatility dsC "Vendor_C" none none
    (computeVendorMetrics "Vendor_C" (filterRange (vendorRows dsC "Vendor_C") none none))
    rfl).2.2 (1 / 2)
    (by
      intro x hx
      simp only [vendorRows, dsC, rC1, rC2, filterRange] at hx
      simp at hx
      subst hx
      norm_num)
    (by
      have hq : qmean ((filterRange (vendorRows dsC "Vendor_C") none none).map
          (·.signal_strength)) = 1 / 2 := by
        norm_num [vendorRows, dsC, rC1, rC2, filterRange, qmean, qsum]
      rw [hq, abs_of_pos (by norm_num)]
      norm_num)

/-! Lemmas for the comparative metrics claim. -/

/-- Membership in the first-seen deduplication. -/
theorem mem_dedupFS (v : String) (l : List String) :
    ∀ seen, v ∈ dedupFS seen l ↔ (v ∈ l ∧ v ∉ seen) := by
  induction l with
  | nil => intro seen; simp [dedupFS]
  | cons a t ih =>
    intro seen
    by_cases ha : a ∈ seen
    · rw [dedupFS, if_pos ha, ih seen]
      constructor
      · rintro ⟨h1, h2⟩
        exact ⟨List.mem_cons_of_mem a h1, h2⟩
      · rintro ⟨h1, h2⟩
        rcases List.mem_cons.mp h1 with h3 | h3
        · subst h3; exact absurd ha h2
        · exact ⟨h3, h2⟩
    · rw [dedupFS, if_neg ha]
      constructor
      · intro h1
        rcases List.mem_cons.mp h1 with h3 | h3
        · rw [h3]
          exact ⟨List.mem_cons_self a t, ha⟩
        · obtain ⟨h4, h5⟩ := (ih (a :: seen)).mp h3
          exact ⟨List.mem_cons_of_mem a h4, fun hc => h5 (List.mem_cons_of_mem a hc)⟩
      · rintro ⟨h1, h2⟩
        by_cases hva : v = a
        · subst hva
          exact List.mem_cons_self v _
        · rcases List.mem_cons.mp h1 with h3 | h3
          · exact absurd h3 hva
          · refine List.mem_cons_of_mem a ((ih (a :: seen)).mpr ⟨h3, ?_⟩)
            intro hc
            rcases List.mem_cons.mp hc with h4 | h4
            · exact hva h4
            · exact h2 h4

/-- Membership in uniqueFS is membership in the underlying list. -/
theorem mem_uniqueFS (v : String) (l : List String) : v ∈ uniqueFS l ↔ v ∈ l := by
  rw [uniqueFS, mem_dedupFS]
  simp

/-- A non-empty dataset has a non-empty vendor list. -/
theorem getVendors_ne_nil (ds : Dataset) (h : ds ≠ []) : getVendors ds ≠ [] := by
  obtain ⟨r, t, rfl⟩ := List.exists_cons_of_ne_nil h
  intro hempty
  have hmem : r.vendor ∈ getVendors (r :: t) := by
    rw [getVendors, mem_uniqueFS]
    simp
  rw [hempty] at hmem
  simp at hmem

/-- Every listed vendor has at least one row. -/
theorem vendorRows_ne_nil_of_mem (ds : Dataset) (v : String)
    (h : v ∈ getVendors ds) : vendorRows ds v ≠ [] := by
  rw [getVendors, mem_uniqueFS] at h
  obtain ⟨r, hr, hrv⟩ := List.mem_map.mp h
  intro hempty
  have : r ∈ vendorRows ds v := List.mem_filter.mpr ⟨hr, by simp [hrv]⟩
  rw [hempty] at this
  simp at this

/-- Metrics an unfiltered get_vendor_metrics call computes for a vendor:
the computation over the full vendor slice. -/
def vendorMetricsOf (ds : Dataset) (v : String) : VendorMetrics :=
  computeVendorMetrics v (vendorRows ds v)

/-- The unfiltered metrics call succeeds on every vendor with rows. -/
theorem getVendorMetrics_full (ds : Dataset) (v : String) (h : vendorRows ds v ≠ []) :
    getVendorMetrics ds v none none = .ok (vendorMetricsOf ds v) := by
  rw [getVendorMetrics_eq_core ds v none none rfl, getVendorData_eq]
  have hf : filterRange (vendorRows ds v) none none = vendorRows ds v := rfl
  rw [hf, if_neg h, if_neg h, exbind_ok]
  simp [List.isEmpty_iff, h, vendorMetricsOf]

/-- Mapping over a successful per-element computation. -/
theorem exMapM_ok (f : α → Except ε β) (g : α → β) (l : List α)
    (h : ∀ a ∈ l, f a = .ok (g a)) : exMapM f l = .ok (l.map g) := by
  induction l with
  | nil => rfl
  | cons a t ih =>
    simp only [exMapM]
    rw [h a (List.mem_cons_self a t), exbind_ok,
      ih (fun x hx => h x (List.mem_cons_of_mem a hx)), exbind_ok]
    rfl

/-- Keys of the paired list are the original list. -/
theorem map_fst_pair (g : String → α) (l : List String) :
    (l.map (fun v => (v, g v))).map Prod.fst = l := by
  induction l with
  | nil => rfl
  | cons a t ih => simp only [List.map_cons, ih]

/-- Composing the pairing with a projection of the metrics. -/
theorem map_pair_map (g : String → β) (f : β → γ) (l : List String) :
    (l.map (fun v => (v, g v))).map (fun p => (p.1, f p.2)) =
      l.map (fun v => (v, f (g v))) := by
  induction l with
  | nil => rfl
  | cons a t ih => simp only [List.map_cons, ih]

/-- The volatility dictionary: filtering the paired metrics for non-null
volatility is pairing the filtered vendor list with the values. -/
theorem filterMap_volatility (g : String → VendorMetrics) (l : List String) :
    ((l.map (fun v => (v, g v))).filterMap (fun p =>
      match p.2.signal_volatility with
      | some q => some (p.1, q)
      | none => none)) =
    (l.filter (fun v => (g v).signal_volatility.isSome)).map
      (fun v => (v, ((g v).signal_volatility).getD 0)) := by
  induction l with
  | nil => rfl
  | cons a t ih =>
    simp only [List.map_cons, List.filterMap_cons, List.filter_cons]
    cases hvol : (g a).signal_volatility with
    | none => simp [hvol, ih]
    | some q => simp [hvol, ih]

/-- Inserting into an arranged list is a permutation of consing. -/
theorem insSorted_perm (le : α → α → Bool) (a : α) (l : List α) :
    List.Perm (insSorted le a l) (a :: l) := by
  induction l with
  | nil => exact List.Perm.refl _
  | cons b t ih =>
    rw [insSorted]
    by_cases hab : le a b = true
    · rw [if_pos hab]
    · rw [if_neg hab]
      exact (ih.cons b).trans (List.Perm.swap a b t)

/-- The stable sort is a permutation of its input. -/
theorem sortByB_perm (le : α → α → Bool) (l : List α) :
    List.Perm (sortByB le l) l := by
  induction l with
  | nil => exact List.Perm.refl _
  | cons a t ih =>
    rw [sortByB, List.foldr_cons]
    exact (insSorted_perm le a _).trans (ih.cons a)

/-- Keys of the positional ranking are the arranged elements. -/
theorem rankFrom_map_fst (l : List α) : ∀ k, (rankFrom k l).map Prod.fst = l := by
  induction l with
  | nil => intro k; rfl
  | cons a t ih => intro k; simp only [rankFrom, List.map_cons, ih]

/-- Values of the positional ranking are the consecutive integers. -/
theorem rankFrom_map_snd (l : List α) :
    ∀ k, (rankFrom k l).map Prod.snd = List.range' k l.length := by
  induction l with
  | nil => intro k; rfl
  | cons a t ih =>
    intro k
    simp only [rankFrom, List.map_cons, ih, List.length_cons, List.range'_succ]

/-- Keys of a ranking dictionary are a permutation of the scored keys. -/
theorem rankMap_fst_perm (le : String × ℚ → String × ℚ → Bool) (l : List (String × ℚ)) :
    List.Perm ((rankMap le l).map Prod.fst) (l.map Prod.fst) := by
  rw [rankMap, rankFrom_map_fst]
  exact (sortByB_perm le l).map Prod.fst

/-- Values of a ranking dictionary are exactly 1..n in rank order. -/
theorem rankMap_snd_eq (le : String × ℚ → String × ℚ → Bool) (l : List (String × ℚ)) :
    (rankMap le l).map Prod.snd = List.range' 1 l.length := by
  rw [rankMap, rankFrom_map_snd, List.length_map, (sortByB_perm le l).length_eq]

/-- The signal-score dictionary built from the paired metrics. -/
theorem map_pair_signal (g : String → VendorMetrics) (l : List String) :
    (l.map (fun v => (v, g v))).map (fun p => (p.1, p.2.signal_strength_mean)) =
      l.map (fun v => (v, (g v).signal_strength_mean)) := by
  induction l with
  | nil => rfl
  | cons a t ih => simp only [List.map_cons, ih]

/-- The drawdown-rate dictionary built from the paired metrics. -/
theorem map_pair_rate (g : String → VendorMetrics) (l : List String) :
    (l.map (fun v => (v, g v))).map (fun p => (p.1, p.2.drawdown_rate)) =
      l.map (fun v => (v, (g v).drawdown_rate)) := by
  induction l with
  | nil => rfl
  | cons a t ih => simp only [List.map_cons, ih]

/-- C5: on every non-empty dataset get_comparative_metrics succeeds;
the keys of ranking_by_avg_signal are exactly the full vendor list and
its values (read in rank order) are exactly 1..N, so the ranks are a
permutation of 1..N with no duplicates; the keys of ranking_by_stability
are exactly the vendors whose signal_volatility is non-null - vendors
with null volatility are absent - and its values are exactly 1..M for M
the number of such vendors.  Both facts hold for the order the code
sorts by (descending mean signal, ascending volatility), and are
insensitive to tie-breaking. -/
theorem comparative_rankings_perm (ds : Dataset) (hne : ds ≠ []) :
    ∃ cm, getComparativeMetrics ds = .ok cm ∧
      List.Perm (cm.ranking_by_avg_signal.map Prod.fst) (getVendors ds) ∧
      cm.ranking_by_avg_signal.map Prod.snd =
        List.range' 1 (getVendors ds).length ∧
      List.Perm (cm.ranking_by_stability.map Prod.fst)
        ((getVendors ds).filter
          (fun v => (vendorMetricsOf ds v).signal_volatility.isSome)) ∧
      cm.ranking_by_stability.map Prod.snd =
        List.range' 1 ((getVendors ds).filter
          (fun v => (vendorMetricsOf ds v).signal_volatility.isSome)).length := by
  have hv : getVendors ds ≠ [] := getVendors_ne_nil ds hne
  have hall : ∀ v ∈ getVendors ds,
      (do let m ← getVendorMetrics ds v none none
          Except.ok (v, m)) = Except.ok (v, vendorMetricsOf ds v) := by
    intro v hm
    rw [getVendorMetrics_full ds v (vendorRows_ne_nil_of_mem ds v hm), exbind_ok]
  have hmap := exMapM_ok _ (fun v => (v, vendorMetricsOf ds v)) (getVendors ds) hall
  simp only [getComparativeMetrics]
  rw [hmap, exbind_ok, map_pair_signal, map_pair_rate, filterMap_volatility]
  obtain ⟨v0, vt, hvv⟩ := List.exists_cons_of_ne_nil hv
  rw [hvv, List.map_cons]
  have hmax : maxByVal ((v0, (vendorMetricsOf ds v0).signal_strength_mean) ::
      vt.map (fun v => (v, (vendorMetricsOf ds v).signal_strength_mean))) =
      some ((vt.map (fun v => (v, (vendorMetricsOf ds v).signal_strength_mean))).foldl
        (fun b p => if b.2 < p.2 then p else b)
        (v0, (vendorMetricsOf ds v0).signal_strength_mean)).1 := rfl
  rw [List.map_cons, hmax]
  have hmin : minByVal ((v0, (vendorMetricsOf ds v0).drawdown_rate) ::
      vt.map (fun v => (v, (vendorMetricsOf ds v).drawdown_rate))) =
      some ((vt.map (fun v => (v, (vendorMetricsOf ds v).drawdown_rate))).foldl
        (fun b p => if p.2 < b.2 then p else b)
        (v0, (vendorMetricsOf ds v0).drawdown_rate)).1 := rfl
  rw [hmin]
  refine ⟨_, rfl, ?_, ?_, ?_, ?_⟩
  · refine List.Perm.trans (rankMap_fst_perm _ _) ?_
    rw [← List.map_cons (fun v => (v, (vendorMetricsOf ds v).signal_strength_mean)) v0 vt,
      map_fst_pair]
  · rw [rankMap_snd_eq]
    simp
  · refine List.Perm.trans (rankMap_fst_perm _ _) ?_
    rw [map_fst_pair]
  · rw [rankMap_snd_eq, List.length_map]

/-- C5 witness: the comparative rankings on the non-empty scenario
dataset: signal ranking keyed by the full vendor list with values 1..2,
stability ranking keyed by the vendors with non-null volatility. -/
theorem comparative_rankings_perm_witness :
    ∃ cm, getComparativeMetrics dsA = .ok cm ∧
      List.Perm (cm.ranking_by_avg_signal.map Prod.fst) (getVendors dsA) ∧
      cm.ranking_by_avg_signal.map Prod.snd =
        List.range' 1 (getVendors dsA).length ∧
      List.Perm (cm.ranking_by_stability.map Prod.fst)
        ((getVendors dsA).filter
          (fun v => (vendorMetricsOf dsA v).signal_volatility.isSome)) ∧
      cm.ranking_by_stability.map Prod.snd =
        List.range' 1 ((getVendors dsA).filter
          (fun v => (vendorMetricsOf dsA v).signal_volatility.isSome)).length :=
  comparative_rankings_perm dsA (by decide)

/-! Lemmas for the month-year date extraction claim. -/

/-- Four digit characters encode a value of at most 9999. -/
theorem val4_le (a b c d : Char) (ha : isDig a = true) (hb : isDig b = true)
    (hc : isDig c = true) (hd : isDig d = true) : val4 a b c d ≤ 9999 := by
  simp only [isDig, Bool.and_eq_true, decide_eq_true_eq] at ha hb hc hd
  simp only [val4, digVal]
  omega

/-- A successful table lookup returns a value of the table. -/
theorem lookupPat_mem (tbl : List (List Char × ℕ)) :
    ∀ (cs : List Char) (m : ℕ) (rest : List Char),
      lookupPat tbl cs = some (m, rest) → ∃ pat, (pat, m) ∈ tbl := by
  induction tbl with
  | nil => intro cs m rest h; simp [lookupPat] at h
  | cons p t ih =>
    intro cs m rest h
    rw [lookupPat] at h
    cases hdp : dropPat p.1 cs with
    | some r =>
      rw [hdp] at h
      simp only [Option.some.injEq, Prod.mk.injEq] at h
      exact ⟨p.1, by rw [← h.1]; simp⟩
    | none =>
      rw [hdp] at h
      obtain ⟨pat, hpat⟩ := ih cs m rest h
      exact ⟨pat, List.mem_cons_of_mem p hpat⟩

/-- Month numbers of the table are between 1 and 12. -/
theorem monthTable_bounds : ∀ p ∈ monthTable, 1 ≤ p.2 ∧ p.2 ≤ 12 := by decide

/-- A successful whitespace-year match yields a year of at most 9999. -/
theorem yearAfterSpaces_le (after : List Char) (y : ℕ)
    (h : yearAfterSpaces after = some y) : y ≤ 9999 := by
  simp only [yearAfterSpaces] at h
  split at h
  · exact absurd h (by simp)
  · split at h
    · split at h
      · simp only [Option.some.injEq] at h
        rename_i a b c d rest2 heq hcond
        simp only [Bool.and_eq_true] at hcond
        obtain ⟨⟨⟨⟨hda, hdb⟩, hdc⟩, hdd⟩, _⟩ := hcond
        rw [← h]
        exact val4_le a b c d hda hdb hdc hdd
      · exact absurd h (by simp)
    · exact absurd h (by simp)

/-- Bounds of a successful anchored month-year match: the month comes
from the table and the year from four digits. -/
theorem monthYearAt_bounds (cs : List Char) (m y : ℕ)
    (h : monthYearAt cs = some (m, y)) : (1 ≤ m ∧ m ≤ 12) ∧ y ≤ 9999 := by
  rw [monthYearAt] at h
  rw [Option.bind_eq_some] at h
  obtain ⟨pr, hlp, hmap⟩ := h
  rw [Option.map_eq_some'] at hmap
  obtain ⟨y1, hy1, hpair⟩ := hmap
  have hm : pr.1 = m := congrArg Prod.fst hpair
  have hy : y1 = y := congrArg Prod.snd hpair
  obtain ⟨pat, hpat⟩ := lookupPat_mem monthTable cs pr.1 pr.2 (by rw [hlp])
  have hb := monthTable_bounds (pat, pr.1) hpat
  constructor
  · rw [← hm]
    exact hb
  · rw [← hy]
    exact yearAfterSpaces_le pr.2 y1 hy1

/-- Bounds of the scanning month-year search. -/
theorem fmyAux_bounds (cs : List Char) : ∀ (pw : Bool) (m y : ℕ),
    fmyAux pw cs = some (m, y) → (1 ≤ m ∧ m ≤ 12) ∧ y ≤ 9999 := by
  induction cs with
  | nil => intro pw m y h; simp [fmyAux] at h
  | cons c rest ih =>
    intro pw m y h
    rw [fmyAux] at h
    cases hmy : (if pw then none else monthYearAt (c :: rest)) with
    | some r =>
      rw [hmy] at h
      simp only [Option.some.injEq] at h
      by_cases hpw : pw = true
      · rw [if_pos hpw] at hmy; simp at hmy
      · rw [if_neg hpw] at hmy
        exact monthYearAt_bounds (c :: rest) m y (by rw [hmy, h])
    | none =>
      rw [hmy] at h
      exact ih (isWordChar c) m y h

/-- Bounds of the month-year search over the whole text. -/
theorem findMonthYear_bounds (cs : List Char) (m y : ℕ)
    (h : findMonthYear cs = some (m, y)) : (1 ≤ m ∧ m ≤ 12) ∧ y ≤ 9999 :=
  fmyAux_bounds cs false m y h

/-- Relations between the code table and the true month lengths. -/
theorem monthDays_facts (y m : ℕ) (h1 : 1 ≤ m) (h2 : m ≤ 12) :
    1 ≤ monthDays m ∧ monthDays m ≤ daysInMonth y m ∧
    (m = 2 → monthDays m = 28) ∧
    (¬ (m = 2 ∧ isLeap y = true) → monthDays m = daysInMonth y m) := by
  interval_cases m <;> by_cases hl : isLeap y = true <;>
    simp_all [monthDays, daysInMonth]

/-- C8 counterexample: the lowercased query february 2020 contains a
month name followed by a four-digit year and no ISO date, and February
2020 belongs to a leap year whose calendar month ends on day 29; yet the
extraction returns end_date 2020-02-28, the MONTH_DAYS table value, not
the last day of the calendar month.  The claim fails at this input. -/
theorem month_year_feb_leap_counterexample :
    extractDates "february 2020".toList =
      some (some ⟨2020, 2, 1⟩, some ⟨2020, 2, 28⟩) ∧
    findAllISO "february 2020".toList = [] ∧
    findMonthYear "february 2020".toList = some (2, 2020) ∧
    isLeap 2020 = true ∧ daysInMonth 2020 2 = 29 ∧
    (some (⟨2020, 2, 28⟩ : Date) ≠ some ⟨2020, 2, 29⟩) :=
  ⟨rfl, rfl, rfl, rfl, rfl, by decide⟩

/-- C8 amended: for every lowercased query text in which the month-year
pattern matches (month name at a word boundary, whitespace, four-digit
year at a word boundary) and no ISO date occurs, and whose year is at
least 1 (year 0000 makes the date constructor raise), the extraction
returns the first day of that month as start_date and day
MONTH_DAYS[month] of that month as end_date; that end is the true last
day of the calendar month for every month except February of a leap
year, where the table gives 28 while the calendar month has 29 days. -/
theorem month_year_expansion (cs : List Char) (m y : ℕ)
    (hiso : findAllISO cs = [])
    (hmy : findMonthYear cs = some (m, y))
    (hy : 1 ≤ y) :
    extractDates cs = some (some ⟨y, m, 1⟩, some ⟨y, m, monthDays m⟩) ∧
    (m = 2 → monthDays m = 28) ∧
    (¬ (m = 2 ∧ isLeap y = true) → monthDays m = daysInMonth y m) := by
  obtain ⟨⟨hm1, hm12⟩, hy9999⟩ := findMonthYear_bounds cs m y hmy
  obtain ⟨hd1, hdle, hfeb, hother⟩ := monthDays_facts y m hm1 hm12
  have hstart : mkDateOpt y m 1 = some ⟨y, m, 1⟩ := by
    have hday : 1 ≤ daysInMonth y m := le_trans hd1 hdle
    simp [mkDateOpt, hy, hy9999, hm1, hm12, hday]
  have hend : mkDateOpt y m (monthDays m) = some ⟨y, m, monthDays m⟩ := by
    simp [mkDateOpt, hy, hy9999, hm1, hm12, hd1, hdle]
  refine ⟨?_, hfeb, hother⟩
  simp only [extractDates, hiso, hmy, hstart, hend]
  rfl

/-- C8 amended witness: the query january 2024 expands to the full
calendar month 2024-01-01 through 2024-01-31. -/
theorem month_year_expansion_witness :
    extractDates "january 2024".toList =
      some (some ⟨2024, 1, 1⟩, some ⟨2024, 1, 31⟩) :=
  (month_year_expansion "january 2024".toList 1 2024 rfl rfl (by norm_num)).1

end KMS
